import Mathlib

/-
  Verification development for the stylehub-pos checkout core.

  Shallow embedding of the cart, checkout and installment logic found in
  src/pages/PDV.tsx, the second PDV variant (src/unnamed/part_001) and
  src/pages/Installments.tsx.  Money is modelled as rationals with explicit
  rounding to two decimal places where the source rounds; product and row
  identifiers are strings; calendar dates are explicit year/month/day
  triples with the month-overflow normalization of the host date library.
-/

set_option autoImplicit false

namespace StyleHub

/-- Calendar date, month 1..12, day 1..31. -/
structure Date where
  year : Int
  month : Nat
  day : Nat
deriving DecidableEq, Repr

/-- Gregorian leap-year test. -/
def isLeapYear (y : Int) : Bool :=
  (y % 4 == 0 && y % 100 != 0) || y % 400 == 0

/-- Number of days in a given month of a given year. -/
def daysInMonth (y : Int) (m : Nat) : Nat :=
  if m = 2 then (if isLeapYear y then 29 else 28)
  else if m = 4 ∨ m = 6 ∨ m = 9 ∨ m = 11 then 30
  else 31

/-- Advance a date by i calendar months keeping the day-of-month, with the
host date normalization: a day past the end of the target month rolls over
into the following month (for day ≤ 31 a single carry step suffices).
Models the dueDate.setMonth(dueDate.getMonth() + i) calls in both PDV
variants. -/
def addMonths (d : Date) (i : Nat) : Date :=
  let t := d.month - 1 + i
  let y := d.year + (t / 12 : Nat)
  let m := t % 12 + 1
  if d.day > daysInMonth y m then
    let day2 := d.day - daysInMonth y m
    if m = 12 then ⟨y + 1, 1, day2⟩ else ⟨y, m + 1, day2⟩
  else ⟨y, m, d.day⟩

/-- Strict lexicographic order on dates; models the dueDate < today
comparison in Installments.tsx (dates compared at day granularity). -/
def Date.before (a b : Date) : Bool :=
  a.year < b.year ||
    (a.year == b.year && (a.month < b.month ||
      (a.month == b.month && a.day < b.day)))

/-- Round a rational to two decimal places; models Number(x.toFixed(2)) on
the non-negative currency values the checkout handles. -/
def round2 (x : ℚ) : ℚ := (round (x * 100) : ℤ) / 100

/-- Product row as used by the checkout logic (presentation-only columns
such as size, color and active are omitted). -/
structure Product where
  id : String
  code : String
  name : String
  sale_price : ℚ
  stock_quantity : ℤ
deriving DecidableEq, Repr

/-- Cart line: a product snapshot plus a quantity (part_001 CartItem;
PDV.tsx inlines the product fields, which is the same data). -/
structure CartItem where
  product : Product
  quantity : ℤ
deriving DecidableEq, Repr

/-- Line total of a cart line, unitPrice × quantity. -/
def lineTotal (it : CartItem) : ℚ := it.product.sale_price * it.quantity

/-- Cart subtotal: part_001 line 93, cart.reduce((sum, item) =>
sum + item.product.sale_price * item.quantity, 0). -/
def subtotal (cart : List CartItem) : ℚ :=
  cart.foldl (fun sum item => sum + item.product.sale_price * item.quantity) 0

/-- Sale total of the part_001 PDV variant, line 94:
Math.max(0, subtotal - discount) (the isFinite guard is vacuous over ℚ). -/
def total (cart : List CartItem) (discount : ℚ) : ℚ :=
  max 0 (subtotal cart - discount)

/-- Sale total of the PDV.tsx variant, lines 153-156: subtotal - discount,
with no floor at zero. -/
def getTotal (cart : List CartItem) (discount : ℚ) : ℚ :=
  subtotal cart - discount

/-- Stock-validation failure reported by the cart operations. -/
inductive StockError where
  | InsufficientStock
deriving DecidableEq, Repr

/-- Result of a cart operation: the resulting cart state together with the
error surfaced to the user, if any (the source shows a destructive toast
and leaves the previous cart state in place). -/
structure CartResult where
  cart : List CartItem
  error : Option StockError
deriving Repr

/-- part_001 addProductToCart, lines 97-114: a qty ≤ 0 call is a silent
no-op; if the product is already in the cart the proposed quantity is
existing + qty, checked against the stock snapshot of the passed product,
and on success every line with that product id gets the incremented
quantity; otherwise qty itself is checked and a new line is appended. -/
def addProductToCart (cart : List CartItem) (product : Product) (qty : ℤ) :
    CartResult :=
  if qty ≤ 0 then ⟨cart, none⟩
  else
    match cart.find? (fun c => c.product.id == product.id) with
    | some existing =>
        if existing.quantity + qty > product.stock_quantity then
          ⟨cart, some StockError.InsufficientStock⟩
        else
          ⟨cart.map (fun c =>
            if c.product.id == product.id then
              { c with quantity := c.quantity + qty }
            else c), none⟩
    | none =>
        if qty > product.stock_quantity then
          ⟨cart, some StockError.InsufficientStock⟩
        else
          ⟨cart ++ [{ product := product, quantity := qty }], none⟩

/-- part_001 updateItemQty, lines 116-126 (same logic as PDV.tsx
updateQuantity, lines 112-133): newQty ≤ 0 filters the line out; otherwise
the product is looked up in the loaded products list and, when found with
newQty above its stock, the call fails leaving the cart unchanged; in every
other case the matching line quantity is replaced in place. -/
def updateItemQty (products : List Product) (cart : List CartItem)
    (productId : String) (newQty : ℤ) : CartResult :=
  if newQty ≤ 0 then
    ⟨cart.filter (fun c => c.product.id != productId), none⟩
  else
    match products.find? (fun p => p.id == productId) with
    | some prod =>
        if newQty > prod.stock_quantity then
          ⟨cart, some StockError.InsufficientStock⟩
        else
          ⟨cart.map (fun c =>
            if c.product.id == productId then { c with quantity := newQty }
            else c), none⟩
    | none =>
        ⟨cart.map (fun c =>
          if c.product.id == productId then { c with quantity := newQty }
          else c), none⟩

/-- Checkout preconditions violated in finalizeSale: empty cart or missing
authenticated user (both PDV variants check these, in this order, before
any persistence call). -/
inductive CheckoutError where
  | EmptyCart
  | Unauthenticated
deriving DecidableEq, Repr

/-- Persisted sales row (fields inserted by finalizeSale). -/
structure SaleRow where
  id : Nat
  customer_id : Option String
  user_id : String
  total_amount : ℚ
  discount : ℚ
  payment_method : String
  installments : ℤ
  status : String
deriving DecidableEq, Repr

/-- Persisted sale_items row. -/
structure SaleItemRow where
  sale_id : Nat
  product_id : String
  quantity : ℤ
  unit_price : ℚ
  total_price : ℚ
deriving DecidableEq, Repr

/-- Installment row as inserted by finalizeSale (payment_date is null at
creation and the row id is generated by the store, so neither appears
here). -/
structure InstallmentRow where
  sale_id : Nat
  installment_number : Nat
  amount : ℚ
  due_date : Date
  status : String
deriving DecidableEq, Repr

/-- The slice of the backing store the checkout reads and writes. -/
structure DBState where
  sales : List SaleRow
  sale_items : List SaleItemRow
  products : List Product
  installmentRows : List InstallmentRow
deriving Repr

/-- supabase products.update({stock_quantity: q}).eq("id", pid): every
product row whose id matches gets the new stock value. -/
def updateStock (ps : List Product) (pid : String) (q : ℤ) : List Product :=
  ps.map (fun p => if p.id == pid then { p with stock_quantity := q } else p)

/-- Installment amount of the PDV.tsx variant, line 222:
getTotal() / installments, stored with no rounding. -/
def installmentAmountPDV (totalAmount : ℚ) (count : ℤ) : ℚ :=
  totalAmount / count

/-- Installment schedule of the part_001 variant, lines 225-240: count rows
numbered 1.., each of amount Number((total / installments).toFixed(2)),
due i months after the sale date, status pending. -/
def generateScheduleRows (saleId : Nat) (totalAmount : ℚ) (count : ℤ)
    (anchor : Date) : List InstallmentRow :=
  (List.range count.toNat).map (fun idx =>
    { sale_id := saleId
      installment_number := idx + 1
      amount := round2 (totalAmount / count)
      due_date := addMonths anchor (idx + 1)
      status := "pending" })

/-- Installment schedule of the PDV.tsx variant, lines 221-243: identical
shape but the amount is the unrounded quotient getTotal() / installments. -/
def generateScheduleRowsPDV (saleId : Nat) (totalAmount : ℚ) (count : ℤ)
    (anchor : Date) : List InstallmentRow :=
  (List.range count.toNat).map (fun idx =>
    { sale_id := saleId
      installment_number := idx + 1
      amount := installmentAmountPDV totalAmount count
      due_date := addMonths anchor (idx + 1)
      status := "pending" })

/-- Outcome of finalizeSale: the store state afterwards and the surfaced
precondition error, if any. -/
structure SaleOutcome where
  db : DBState
  error : Option CheckoutError
deriving Repr

/-- part_001 finalizeSale, lines 174-240 (PDV.tsx lines 158-243 has the
same structure, differing only in the two spots noted above): reject an
empty cart, then a missing user; otherwise insert the sales row (with the
installments column forced to 1 unless paying by installment), one
sale_items row per cart line priced from the cart snapshot, write each
product's new stock as snapshot stock minus quantity, and insert the
installment schedule only when paying by installment in more than one
installment.  The store-generated sale id is modelled as the current
number of sales rows; today is the date at the time of the call. -/
def finalizeSale (db : DBState) (cart : List CartItem) (user : Option String)
    (selectedCustomerId : Option String) (discount : ℚ)
    (paymentMethod : String) (installmentsCount : ℤ) (today : Date) :
    SaleOutcome :=
  if cart.isEmpty then ⟨db, some CheckoutError.EmptyCart⟩
  else
    match user with
    | none => ⟨db, some CheckoutError.Unauthenticated⟩
    | some uid =>
        let saleId := db.sales.length
        let sale : SaleRow :=
          { id := saleId
            customer_id := selectedCustomerId
            user_id := uid
            total_amount := total cart discount
            discount := discount
            payment_method := paymentMethod
            installments :=
              if paymentMethod = "installment" then installmentsCount else 1
            status := "completed" }
        let saleItems : List SaleItemRow := cart.map (fun item =>
          { sale_id := saleId
            product_id := item.product.id
            quantity := item.quantity
            unit_price := item.product.sale_price
            total_price := item.product.sale_price * item.quantity })
        let productsAfter := cart.foldl
          (fun ps item =>
            updateStock ps item.product.id
              (item.product.stock_quantity - item.quantity))
          db.products
        let instRows :=
          if paymentMethod = "installment" ∧ installmentsCount > 1 then
            generateScheduleRows saleId (total cart discount)
              installmentsCount today
          else []
        ⟨{ sales := db.sales ++ [sale]
           sale_items := db.sale_items ++ saleItems
           products := productsAfter
           installmentRows := db.installmentRows ++ instRows }, none⟩

/-- Installment row as read and updated by the Installments page (row id
and payment date are present there). -/
structure StoredInstallment where
  id : String
  sale_id : String
  installment_number : ℤ
  amount : ℚ
  due_date : Date
  payment_date : Option Date
  status : String
deriving DecidableEq, Repr

/-- Installments.tsx markAsPaid (both variants, lines 49-60 and 261-284):
installments.update({status: "paid", payment_date: today}).eq("id", id),
with no guard on the current status. -/
def markAsPaid (rows : List StoredInstallment) (id : String) (today : Date) :
    List StoredInstallment :=
  rows.map (fun r =>
    if r.id == id then { r with status := "paid", payment_date := some today }
    else r)

/-- Status derived at read time for an installment row. -/
inductive DerivedStatus where
  | pending
  | paid
  | overdue
deriving DecidableEq, Repr

/-- Installments.tsx second variant, line 171: is_overdue is
status == "pending" && dueDate < today. -/
def isOverdue (r : StoredInstallment) (today : Date) : Bool :=
  r.status == "pending" && Date.before r.due_date today

/-- Display status composed from the stored status and is_overdue, as in
getStatusBadge (Installments.tsx lines 350-358): paid when the stored
status is paid, else overdue when is_overdue, else pending. -/
def deriveStatus (r : StoredInstallment) (today : Date) : DerivedStatus :=
  if r.status == "paid" then DerivedStatus.paid
  else if isOverdue r today then DerivedStatus.overdue
  else DerivedStatus.pending

/-! ### Helper lemmas -/

theorem foldl_add_eq_sum_map (f : CartItem → ℚ) (l : List CartItem) (a : ℚ) :
    l.foldl (fun s it => s + f it) a = a + (l.map f).sum := by
  induction l generalizing a with
  | nil => simp
  | cons x xs ih => simp [List.foldl_cons, ih, add_assoc]

theorem subtotal_eq_sum_lineTotals (cart : List CartItem) :
    subtotal cart = (cart.map lineTotal).sum := by
  have h := foldl_add_eq_sum_map lineTotal cart 0
  simpa [subtotal, lineTotal] using h

/-- A sample product used in concrete evaluations. -/
def sampleShirt : Product :=
  { id := "p1", code := "001", name := "Camiseta", sale_price := 10,
    stock_quantity := 5 }

/-! ### C1 -/

/-- C1 counterexample: in the PDV.tsx variant the computed sale total is
getTotal, which has no floor at zero; on a cart holding one unit priced
10.00 with discount 15.00 it returns -5.00, which is negative and differs
from max(0, Σ lineTotal - 15) = 0. -/
theorem C1_getTotal_counterexample :
    getTotal [⟨sampleShirt, 1⟩] 15 = -5 ∧
      getTotal [⟨sampleShirt, 1⟩] 15 < 0 ∧
      getTotal [⟨sampleShirt, 1⟩] 15 ≠
        max 0 (([(⟨sampleShirt, 1⟩ : CartItem)].map lineTotal).sum - 15) := by
  refine ⟨?_, ?_, ?_⟩ <;>
    simp [getTotal, subtotal, lineTotal, sampleShirt] <;> norm_num

/-- C1 (amended): in the part_001 PDV variant, for every cart and every
discount d ≥ 0 the computed sale total equals max(0, Σ lineTotal - d), is
never negative, and a discount at or above the subtotal is not rejected
but yields a total of 0. -/
theorem C1_total_max_clamp (cart : List CartItem) (d : ℚ) (hd : 0 ≤ d) :
    total cart d = max 0 ((cart.map lineTotal).sum - d) ∧
      0 ≤ total cart d ∧
      ((cart.map lineTotal).sum ≤ d → total cart d = 0) := by
  refine ⟨?_, ?_, ?_⟩
  · rw [total, subtotal_eq_sum_lineTotals]
  · exact le_max_left _ _
  · intro hle
    rw [total, subtotal_eq_sum_lineTotals]
    exact max_eq_left (by linarith)

/-- C1 witness: the amended statement evaluated on a concrete cart with a
discount exceeding the subtotal. -/
theorem C1_total_max_clamp_witness :
    (0 : ℚ) ≤ 15 ∧
      (total [⟨sampleShirt, 1⟩] 15 =
          max 0 (([(⟨sampleShirt, 1⟩ : CartItem)].map lineTotal).sum - 15) ∧
        0 ≤ total [⟨sampleShirt, 1⟩] 15 ∧
        (([(⟨sampleShirt, 1⟩ : CartItem)].map lineTotal).sum ≤ 15 →
          total [⟨sampleShirt, 1⟩] 15 = 0)) :=
  ⟨by norm_num, C1_total_max_clamp [⟨sampleShirt, 1⟩] 15 (by norm_num)⟩

/-! ### C2 -/

/-- C2 counterexample: the PDV.tsx variant stores the unrounded quotient
total / count as the installment amount; for total 100.00 in 3 installments
every generated amount is 100/3, which is not round(100/3, 2) = 33.33, so
the amounts are not rounded to 2 decimal places there. -/
theorem C2_schedule_counterexample :
    (generateScheduleRowsPDV 0 100 3 ⟨2024, 1, 15⟩).map
        (fun r => r.amount) = [100 / 3, 100 / 3, 100 / 3] ∧
      (100 : ℚ) / 3 ≠ round2 (100 / 3) := by
  constructor
  · simp [generateScheduleRowsPDV, installmentAmountPDV, List.range_succ]
  · norm_num [round2, round_eq]

/-- C2 (amended, in the part_001 variant; the PDV.tsx variant stores the
unrounded quotient instead): for every totalAmount and installmentCount
≥ 2 the schedule has exactly installmentCount rows numbered
1..installmentCount, each row with amount round(totalAmount / count, 2),
status pending, and i-th due date the anchor advanced by i calendar
months; in particular total 100.00 split in 3 from anchor 2024-01-15 gives
three rows of 33.33 due 2024-02-15, 2024-03-15 and 2024-04-15, all
pending, whose amounts sum to 99.99. -/
theorem C2_schedule_equal_split :
    (∀ (sid : Nat) (t : ℚ) (count : ℤ) (anchor : Date), 2 ≤ count →
      (generateScheduleRows sid t count anchor).length = count.toNat ∧
        (generateScheduleRows sid t count anchor).map
            (fun r => r.installment_number) =
          (List.range count.toNat).map (fun i => i + 1) ∧
        (∀ r ∈ generateScheduleRows sid t count anchor,
          r.amount = round2 (t / count) ∧ r.status = "pending" ∧
            r.sale_id = sid) ∧
        (generateScheduleRows sid t count anchor).map (fun r => r.due_date) =
          (List.range count.toNat).map (fun i => addMonths anchor (i + 1))) ∧
      ((generateScheduleRows 0 100 3 ⟨2024, 1, 15⟩).map (fun r => r.amount) =
          [3333 / 100, 3333 / 100, 3333 / 100] ∧
        ((generateScheduleRows 0 100 3 ⟨2024, 1, 15⟩).map
            (fun r => r.amount)).sum = 9999 / 100 ∧
        (generateScheduleRows 0 100 3 ⟨2024, 1, 15⟩).map
            (fun r => r.due_date) =
          [⟨2024, 2, 15⟩, ⟨2024, 3, 15⟩, ⟨2024, 4, 15⟩] ∧
        ∀ r ∈ generateScheduleRows 0 100 3 ⟨2024, 1, 15⟩,
          r.status = "pending") := by
  have hround : round2 ((100 : ℚ) / 3) = 3333 / 100 := by
    norm_num [round2, round_eq]
  constructor
  · intro sid t count anchor _
    refine ⟨by simp [generateScheduleRows], ?_, ?_, ?_⟩
    · simp [generateScheduleRows]
    · intro r hr
      simp only [generateScheduleRows, List.mem_map] at hr
      obtain ⟨idx, -, rfl⟩ := hr
      exact ⟨rfl, rfl, rfl⟩
    · simp [generateScheduleRows]
  · refine ⟨?_, ?_, ?_, ?_⟩
    · simp [generateScheduleRows, List.range_succ, hround]
    · simp [generateScheduleRows, List.range_succ, hround]
      norm_num
    · decide
    · intro r hr
      simp only [generateScheduleRows, List.mem_map] at hr
      obtain ⟨idx, -, rfl⟩ := hr
      rfl

/-- C2 witness: the general schedule shape instantiated at totalAmount
100, count 3 and anchor 2024-01-15. -/
theorem C2_schedule_equal_split_witness :
    (2 : ℤ) ≤ 3 ∧
      ((generateScheduleRows 0 100 3 ⟨2024, 1, 15⟩).length = (3 : ℤ).toNat ∧
        (generateScheduleRows 0 100 3 ⟨2024, 1, 15⟩).map
            (fun r => r.installment_number) =
          (List.range (3 : ℤ).toNat).map (fun i => i + 1) ∧
        (∀ r ∈ generateScheduleRows 0 100 3 ⟨2024, 1, 15⟩,
          r.amount = round2 (100 / 3) ∧ r.status = "pending" ∧
            r.sale_id = 0) ∧
        (generateScheduleRows 0 100 3 ⟨2024, 1, 15⟩).map
            (fun r => r.due_date) =
          (List.range (3 : ℤ).toNat).map
            (fun i => addMonths ⟨2024, 1, 15⟩ (i + 1))) :=
  ⟨by decide, C2_schedule_equal_split.1 0 100 3 ⟨2024, 1, 15⟩ (by decide)⟩

/-! ### Cart helper lemmas

The Cart invariant of the data model is that lines are unique by
productId; these lemmas turn that invariant into facts about find?, map
and filter as used by the cart operations. -/

theorem find?_eq_of_nodup_mem (cart : List CartItem) (it : CartItem)
    (pid : String) (hnd : (cart.map (fun c => c.product.id)).Nodup)
    (hmem : it ∈ cart) (hid : it.product.id = pid) :
    cart.find? (fun c => c.product.id == pid) = some it := by
  induction cart with
  | nil => cases hmem
  | cons x xs ih =>
      simp only [List.map_cons, List.nodup_cons] at hnd
      obtain ⟨hx, hnd2⟩ := hnd
      rcases List.mem_cons.mp hmem with rfl | hmem2
      · exact List.find?_cons_of_pos _ (by simp [hid])
      · have hxid : ¬ x.product.id = pid := by
          intro h
          exact hx (h ▸ hid ▸ List.mem_map_of_mem (fun c => c.product.id) hmem2)
        rw [List.find?_cons_of_neg _ (by simp [hxid])]
        exact ih hnd2 hmem2

theorem map_update_of_absent (cart : List CartItem) (pid : String)
    (g : CartItem → CartItem) (h : ∀ c ∈ cart, ¬ c.product.id = pid) :
    cart.map (fun c => if c.product.id == pid then g c else c) = cart := by
  induction cart with
  | nil => rfl
  | cons x xs ih =>
      have hx : (x.product.id == pid) = false := by
        simpa using h x (List.mem_cons_self x xs)
      simp only [List.map_cons, hx, Bool.false_eq_true, if_false]
      rw [ih (fun c hc => h c (List.mem_cons_of_mem x hc))]

theorem filter_eq_nil_of_absent (cart : List CartItem) (pid : String)
    (h : ∀ c ∈ cart, ¬ c.product.id = pid) :
    cart.filter (fun c => c.product.id == pid) = [] := by
  induction cart with
  | nil => rfl
  | cons x xs ih =>
      have hx : (x.product.id == pid) = false := by
        simpa using h x (List.mem_cons_self x xs)
      simp only [List.filter_cons, hx, Bool.false_eq_true, if_false]
      exact ih (fun c hc => h c (List.mem_cons_of_mem x hc))

theorem nodup_absent_of_mem (x : CartItem) (xs : List CartItem) (pid : String)
    (hx : x.product.id ∉ xs.map (fun c => c.product.id))
    (hid : x.product.id = pid) :
    ∀ c ∈ xs, ¬ c.product.id = pid := by
  intro c hc h
  exact hx (hid ▸ h ▸ List.mem_map_of_mem (fun c => c.product.id) hc)

theorem filter_map_update_single (cart : List CartItem) (pid : String)
    (it : CartItem) (g : CartItem → CartItem)
    (hg : ∀ c, (g c).product = c.product)
    (hnd : (cart.map (fun c => c.product.id)).Nodup)
    (hmem : it ∈ cart) (hid : it.product.id = pid) :
    (cart.map (fun c => if c.product.id == pid then g c else c)).filter
        (fun c => c.product.id == pid) = [g it] := by
  induction cart with
  | nil => cases hmem
  | cons x xs ih =>
      simp only [List.map_cons, List.nodup_cons] at hnd
      obtain ⟨hx, hnd2⟩ := hnd
      rcases List.mem_cons.mp hmem with rfl | hmem2
      · have habs : ∀ c ∈ xs, ¬ c.product.id = pid :=
          nodup_absent_of_mem it xs pid hx hid
        have hidb : (it.product.id == pid) = true := by simpa using hid
        have hgid : ((g it).product.id == pid) = true := by
          simp [hg, hid]
        simp only [List.map_cons, hidb, if_true, List.filter_cons, hgid,
          map_update_of_absent xs pid g habs,
          filter_eq_nil_of_absent xs pid habs]
      · have hxid : ¬ x.product.id = pid := by
          intro h
          exact hx (h ▸ hid ▸ List.mem_map_of_mem (fun c => c.product.id) hmem2)
        have hxb : (x.product.id == pid) = false := by simpa using hxid
        simp only [List.map_cons, hxb, Bool.false_eq_true, if_false,
          List.filter_cons]
        exact ih hnd2 hmem2

/-! ### C3 -/

/-- C3: on a cart whose lines are unique by productId and already hold the
product at quantity q1, adding q2 > 0 more units succeeds when q1 + q2
does not exceed the stock snapshot of the passed product, leaving a cart
of the same length whose only line for that product has quantity q1 + q2
(no duplicate line appended); when q1 + q2 exceeds the stock the call
fails with InsufficientStock and returns the cart unchanged, the line
still at q1. -/
theorem C3_add_existing_product (cart : List CartItem) (product : Product)
    (it : CartItem) (q2 : ℤ)
    (hnd : (cart.map (fun c => c.product.id)).Nodup)
    (hmem : it ∈ cart) (hid : it.product.id = product.id) (hq2 : 0 < q2) :
    (it.quantity + q2 ≤ product.stock_quantity →
      (addProductToCart cart product q2).error = none ∧
        ((addProductToCart cart product q2).cart.filter
            (fun c => c.product.id == product.id)).map (fun c => c.quantity) =
          [it.quantity + q2] ∧
        (addProductToCart cart product q2).cart.length = cart.length) ∧
    (product.stock_quantity < it.quantity + q2 →
      (addProductToCart cart product q2).error =
          some StockError.InsufficientStock ∧
        (addProductToCart cart product q2).cart = cart) := by
  have hfind : cart.find? (fun c => c.product.id == product.id) = some it :=
    find?_eq_of_nodup_mem cart it product.id hnd hmem hid
  have hq2n : ¬ q2 ≤ 0 := not_le.mpr hq2
  constructor
  · intro hle
    have hcond : ¬ it.quantity + q2 > product.stock_quantity := not_lt.mpr hle
    have hres : addProductToCart cart product q2 =
        ⟨cart.map (fun c =>
          if c.product.id == product.id then
            { c with quantity := c.quantity + q2 }
          else c), none⟩ := by
      rw [addProductToCart, if_neg hq2n, hfind]
      exact if_neg hcond
    refine ⟨by rw [hres], ?_, by rw [hres]; exact List.length_map _ _⟩
    rw [hres]
    rw [filter_map_update_single cart product.id it
      (fun c => { c with quantity := c.quantity + q2 }) (fun c => rfl)
      hnd hmem hid]
    rfl
  · intro hgt
    have hcond : it.quantity + q2 > product.stock_quantity := hgt
    have hres : addProductToCart cart product q2 =
        ⟨cart, some StockError.InsufficientStock⟩ := by
      rw [addProductToCart, if_neg hq2n, hfind]
      exact if_pos hcond
    exact ⟨by rw [hres], by rw [hres]⟩

/-- C3 witness: one unit of the sample product already in the cart, adding
two more with stock 5 succeeds at quantity 3. -/
theorem C3_add_existing_product_witness :
    ((([⟨sampleShirt, 1⟩] : List CartItem).map
        (fun c => c.product.id)).Nodup ∧
      (⟨sampleShirt, 1⟩ : CartItem) ∈ ([⟨sampleShirt, 1⟩] : List CartItem) ∧
      (⟨sampleShirt, 1⟩ : CartItem).product.id = sampleShirt.id ∧
      (0 : ℤ) < 2) ∧
    ((⟨sampleShirt, 1⟩ : CartItem).quantity + 2 ≤
        sampleShirt.stock_quantity ∧
      (addProductToCart [⟨sampleShirt, 1⟩] sampleShirt 2).error = none ∧
        ((addProductToCart [⟨sampleShirt, 1⟩] sampleShirt 2).cart.filter
            (fun c => c.product.id == sampleShirt.id)).map
          (fun c => c.quantity) =
          [(⟨sampleShirt, 1⟩ : CartItem).quantity + 2] ∧
        (addProductToCart [⟨sampleShirt, 1⟩] sampleShirt 2).cart.length =
          ([⟨sampleShirt, 1⟩] : List CartItem).length) :=
  ⟨⟨by decide, by decide, by decide, by decide⟩, by decide,
    (C3_add_existing_product [⟨sampleShirt, 1⟩] sampleShirt ⟨sampleShirt, 1⟩ 2
      (by decide) (by decide) (by decide) (by decide)).1 (by decide)⟩

/-! ### C4 -/

/-- C4: for a cart containing a line for productId, whose product is known
to the loaded products list: newQuantity ≤ 0 removes every line with that
productId and is not an error; 0 < newQuantity above the known stock fails
with InsufficientStock leaving the cart unchanged; otherwise the matching
line gets the new quantity in place and every other line is unchanged. -/
theorem C4_updateQuantity_cases (products : List Product)
    (cart : List CartItem) (pid : String) (newQty : ℤ) (prod : Product)
    (it : CartItem)
    (hprod : products.find? (fun p => p.id == pid) = some prod)
    (hmem : it ∈ cart) (hid : it.product.id = pid) :
    (newQty ≤ 0 →
      (updateItemQty products cart pid newQty).error = none ∧
        (∀ c ∈ (updateItemQty products cart pid newQty).cart,
          ¬ c.product.id = pid) ∧
        (updateItemQty products cart pid newQty).cart =
          cart.filter (fun c => c.product.id != pid)) ∧
    (0 < newQty → prod.stock_quantity < newQty →
      (updateItemQty products cart pid newQty).error =
          some StockError.InsufficientStock ∧
        (updateItemQty products cart pid newQty).cart = cart) ∧
    (0 < newQty → newQty ≤ prod.stock_quantity →
      (updateItemQty products cart pid newQty).error = none ∧
        (updateItemQty products cart pid newQty).cart.length = cart.length ∧
        List.Forall₂ (fun c c2 =>
            (c.product.id = pid →
              c2.product = c.product ∧ c2.quantity = newQty) ∧
            (¬ c.product.id = pid → c2 = c))
          cart (updateItemQty products cart pid newQty).cart) := by
  refine ⟨?_, ?_, ?_⟩
  · intro hle
    have hres : updateItemQty products cart pid newQty =
        ⟨cart.filter (fun c => c.product.id != pid), none⟩ := by
      rw [updateItemQty, if_pos hle]
    refine ⟨by rw [hres], ?_, by rw [hres]⟩
    intro c hc
    rw [hres] at hc
    have := List.of_mem_filter hc
    simpa using this
  · intro hpos hgt
    have hres : updateItemQty products cart pid newQty =
        ⟨cart, some StockError.InsufficientStock⟩ := by
      rw [updateItemQty, if_neg (not_le.mpr hpos), hprod]
      exact if_pos hgt
    exact ⟨by rw [hres], by rw [hres]⟩
  · intro hpos hle
    have hres : updateItemQty products cart pid newQty =
        ⟨cart.map (fun c =>
          if c.product.id == pid then { c with quantity := newQty } else c),
          none⟩ := by
      rw [updateItemQty, if_neg (not_le.mpr hpos), hprod]
      exact if_neg (not_lt.mpr hle)
    refine ⟨by rw [hres], by rw [hres]; exact List.length_map _ _, ?_⟩
    have hcart : (updateItemQty products cart pid newQty).cart =
        cart.map (fun c =>
          if c.product.id == pid then { c with quantity := newQty }
          else c) := by
      rw [hres]
    rw [hcart, List.forall₂_map_right_iff, List.forall₂_same]
    intro c _
    constructor
    · intro hpid
      rw [if_pos (by simpa using hpid)]
      exact ⟨rfl, rfl⟩
    · intro hpid
      rw [if_neg (by simpa using hpid)]

/-- C4 witness: the three cases evaluated on a one-line cart for the
sample product with newQuantity 0 removing the line. -/
theorem C4_updateQuantity_cases_witness :
    ([sampleShirt].find? (fun p => p.id == "p1") = some sampleShirt ∧
      (⟨sampleShirt, 2⟩ : CartItem) ∈ ([⟨sampleShirt, 2⟩] : List CartItem) ∧
      (⟨sampleShirt, 2⟩ : CartItem).product.id = "p1") ∧
    ((0 : ℤ) ≤ 0 ∧
      (updateItemQty [sampleShirt] [⟨sampleShirt, 2⟩] "p1" 0).error = none ∧
        (∀ c ∈ (updateItemQty [sampleShirt] [⟨sampleShirt, 2⟩] "p1" 0).cart,
          ¬ c.product.id = "p1") ∧
        (updateItemQty [sampleShirt] [⟨sampleShirt, 2⟩] "p1" 0).cart =
          ([⟨sampleShirt, 2⟩] : List CartItem).filter
            (fun c => c.product.id != "p1")) :=
  ⟨⟨by decide, by decide, by decide⟩, by decide,
    (C4_updateQuantity_cases [sampleShirt] [⟨sampleShirt, 2⟩] "p1" 0
        sampleShirt ⟨sampleShirt, 2⟩ (by decide) (by decide)
        (by decide)).1 (by decide)⟩

/-! ### C10 -/

/-- C10: updating the quantity of a productId that has no line in the cart,
with a positive new quantity within the known stock of that product,
raises no error and returns the cart unchanged (in particular no new line
is created). -/
theorem C10_update_absent_product (products : List Product)
    (cart : List CartItem) (pid : String) (newQty : ℤ) (prod : Product)
    (hprod : products.find? (fun p => p.id == pid) = some prod)
    (habs : ∀ c ∈ cart, ¬ c.product.id = pid)
    (hpos : 0 < newQty) (hle : newQty ≤ prod.stock_quantity) :
    (updateItemQty products cart pid newQty).error = none ∧
      (updateItemQty products cart pid newQty).cart = cart := by
  have hres : updateItemQty products cart pid newQty =
      ⟨cart.map (fun c =>
        if c.product.id == pid then { c with quantity := newQty } else c),
        none⟩ := by
    rw [updateItemQty, if_neg (not_le.mpr hpos), hprod]
    exact if_neg (not_lt.mpr hle)
  rw [hres]
  exact ⟨rfl, map_update_of_absent cart pid _ habs⟩

/-- C10 witness: cart holding a different product, update for p2 at
quantity 1 within stock leaves the cart as it was. -/
theorem C10_update_absent_product_witness :
    ([⟨"p2", "002", "Bermuda", 20, 4⟩] : List Product).find?
        (fun p => p.id == "p2") = some ⟨"p2", "002", "Bermuda", 20, 4⟩ ∧
      (∀ c ∈ ([⟨sampleShirt, 1⟩] : List CartItem), ¬ c.product.id = "p2") ∧
      (0 : ℤ) < 1 ∧ (1 : ℤ) ≤ (4 : ℤ) ∧
      ((updateItemQty [⟨"p2", "002", "Bermuda", 20, 4⟩] [⟨sampleShirt, 1⟩]
          "p2" 1).error = none ∧
        (updateItemQty [⟨"p2", "002", "Bermuda", 20, 4⟩] [⟨sampleShirt, 1⟩]
          "p2" 1).cart = [⟨sampleShirt, 1⟩]) :=
  ⟨by decide, by decide, by decide, by decide,
    C10_update_absent_product [⟨"p2", "002", "Bermuda", 20, 4⟩]
      [⟨sampleShirt, 1⟩] "p2" 1 ⟨"p2", "002", "Bermuda", 20, 4⟩
      (by decide) (by decide) (by decide) (by decide)⟩

/-! ### C5 -/

/-- C5: finalizeSale on an empty cart fails with EmptyCart, and with a
non-empty cart but no authenticated user fails with Unauthenticated; in
both cases the persisted store is returned unchanged (no sale, item,
stock or installment write happens). -/
theorem C5_precondition_failures (db : DBState) (cart : List CartItem)
    (user : Option String) (cust : Option String) (d : ℚ) (pm : String)
    (n : ℤ) (today : Date) :
    (cart = [] →
      (finalizeSale db cart user cust d pm n today).error =
          some CheckoutError.EmptyCart ∧
        (finalizeSale db cart user cust d pm n today).db = db) ∧
    (cart ≠ [] → user = none →
      (finalizeSale db cart user cust d pm n today).error =
          some CheckoutError.Unauthenticated ∧
        (finalizeSale db cart user cust d pm n today).db = db) := by
  constructor
  · intro hc
    subst hc
    exact ⟨rfl, rfl⟩
  · intro hc hu
    subst hu
    have he : cart.isEmpty = false := by
      simpa [List.isEmpty_iff] using hc
    rw [finalizeSale, he]
    exact ⟨rfl, rfl⟩

/-- C5 witness: both failures evaluated on concrete inputs against a
concrete store. -/
theorem C5_precondition_failures_witness :
    ((finalizeSale ⟨[], [], [sampleShirt], []⟩ [] (some "u1") none 0 "cash" 1
          ⟨2024, 1, 15⟩).error = some CheckoutError.EmptyCart ∧
      (finalizeSale ⟨[], [], [sampleShirt], []⟩ [] (some "u1") none 0 "cash" 1
          ⟨2024, 1, 15⟩).db = ⟨[], [], [sampleShirt], []⟩) ∧
    ((finalizeSale ⟨[], [], [sampleShirt], []⟩ [⟨sampleShirt, 1⟩] none none 0
          "cash" 1 ⟨2024, 1, 15⟩).error =
        some CheckoutError.Unauthenticated ∧
      (finalizeSale ⟨[], [], [sampleShirt], []⟩ [⟨sampleShirt, 1⟩] none none 0
          "cash" 1 ⟨2024, 1, 15⟩).db = ⟨[], [], [sampleShirt], []⟩) :=
  ⟨(C5_precondition_failures ⟨[], [], [sampleShirt], []⟩ [] (some "u1") none
      0 "cash" 1 ⟨2024, 1, 15⟩).1 rfl,
    (C5_precondition_failures ⟨[], [], [sampleShirt], []⟩ [⟨sampleShirt, 1⟩]
      none none 0 "cash" 1 ⟨2024, 1, 15⟩).2 (by decide) rfl⟩

/-- Unfolding of the success path of finalizeSale (non-empty cart,
authenticated user). -/
theorem finalizeSale_success (db : DBState) (cart : List CartItem)
    (uid : String) (cust : Option String) (d : ℚ) (pm : String) (n : ℤ)
    (today : Date) (hne : cart ≠ []) :
    finalizeSale db cart (some uid) cust d pm n today =
      ⟨{ sales := db.sales ++
            [{ id := db.sales.length
               customer_id := cust
               user_id := uid
               total_amount := total cart d
               discount := d
               payment_method := pm
               installments := if pm = "installment" then n else 1
               status := "completed" }]
         sale_items := db.sale_items ++ cart.map (fun item =>
            { sale_id := db.sales.length
              product_id := item.product.id
              quantity := item.quantity
              unit_price := item.product.sale_price
              total_price := item.product.sale_price * item.quantity })
         products := cart.foldl
            (fun ps item =>
              updateStock ps item.product.id
                (item.product.stock_quantity - item.quantity))
            db.products
         installmentRows := db.installmentRows ++
            (if pm = "installment" ∧ n > 1 then
              generateScheduleRows db.sales.length (total cart d) n today
            else []) }, none⟩ := by
  have he : cart.isEmpty = false := by
    simpa [List.isEmpty_iff] using hne
  rw [finalizeSale, he]
  rfl

/-! ### C6 -/

/-- C6: a successful finalizeSale appends exactly one sales row whose
installments column is the caller count only for paymentMethod
installment and is forced to 1 otherwise, and appends installment rows
precisely when paymentMethod = installment and the count exceeds 1 (an
installment sale with count 1 adds none). -/
theorem C6_installment_count_policy (db : DBState) (cart : List CartItem)
    (uid : String) (cust : Option String) (d : ℚ) (pm : String) (n : ℤ)
    (today : Date) (hne : cart ≠ []) :
    (finalizeSale db cart (some uid) cust d pm n today).error = none ∧
      (∃ s : SaleRow,
        (finalizeSale db cart (some uid) cust d pm n today).db.sales =
            db.sales ++ [s] ∧
          s.installments = (if pm = "installment" then n else 1) ∧
          (¬ pm = "installment" → s.installments = 1)) ∧
      ((finalizeSale db cart (some uid) cust d pm n today).db.installmentRows
          ≠ db.installmentRows ↔ (pm = "installment" ∧ 1 < n)) := by
  rw [finalizeSale_success db cart uid cust d pm n today hne]
  refine ⟨rfl, ⟨_, rfl, rfl, ?_⟩, ?_⟩
  · intro hpm
    simp [if_neg hpm]
  · show db.installmentRows ++ _ ≠ db.installmentRows ↔ _
    by_cases hcond : pm = "installment" ∧ n > 1
    · rw [if_pos hcond]
      simp only [hcond, and_true, iff_true, ne_eq]
      intro habs
      have hlen := congrArg List.length habs
      simp only [List.length_append, generateScheduleRows,
        List.length_map, List.length_range] at hlen
      omega
    · rw [if_neg hcond]
      simp [hcond]

/-- C6 witness: a concrete cash sale with a caller-supplied count of 5:
the stored count is 1 and no installment row is created. -/
theorem C6_installment_count_policy_witness :
    ([(⟨sampleShirt, 1⟩ : CartItem)] ≠ []) ∧
      ((finalizeSale ⟨[], [], [sampleShirt], []⟩ [⟨sampleShirt, 1⟩]
            (some "u1") none 0 "cash" 5 ⟨2024, 1, 15⟩).error = none ∧
        (∃ s : SaleRow,
          (finalizeSale ⟨[], [], [sampleShirt], []⟩ [⟨sampleShirt, 1⟩]
                (some "u1") none 0 "cash" 5 ⟨2024, 1, 15⟩).db.sales =
              ([] : List SaleRow) ++ [s] ∧
            s.installments = (if ("cash" : String) = "installment" then 5
              else 1) ∧
            (¬ ("cash" : String) = "installment" → s.installments = 1)) ∧
        ((finalizeSale ⟨[], [], [sampleShirt], []⟩ [⟨sampleShirt, 1⟩]
              (some "u1") none 0 "cash" 5 ⟨2024, 1, 15⟩).db.installmentRows
            ≠ ([] : List InstallmentRow) ↔
          (("cash" : String) = "installment" ∧ (1 : ℤ) < 5))) :=
  ⟨by decide,
    C6_installment_count_policy ⟨[], [], [sampleShirt], []⟩ [⟨sampleShirt, 1⟩]
      "u1" none 0 "cash" 5 ⟨2024, 1, 15⟩ (by decide)⟩

/-! ### C7 -/

/-- Stock of the product with the given id as currently persisted. -/
def stockOf (ps : List Product) (pid : String) : Option ℤ :=
  (ps.find? (fun p => p.id == pid)).map (fun p => p.stock_quantity)

theorem find?_updateStock (ps : List Product) (pid pid2 : String) (q : ℤ) :
    (updateStock ps pid q).find? (fun p => p.id == pid2) =
      (ps.find? (fun p => p.id == pid2)).map
        (fun p => if p.id == pid then { p with stock_quantity := q }
          else p) := by
  rw [updateStock, List.find?_map]
  have hpred : ((fun p => p.id == pid2) ∘
      (fun p => if p.id == pid then { p with stock_quantity := q }
        else p)) = (fun p : Product => p.id == pid2) := by
    funext x
    by_cases hx : x.id = pid <;> simp [hx]
  rw [hpred]

theorem stockOf_updateStock_self (ps : List Product) (pid : String) (q : ℤ) :
    stockOf (updateStock ps pid q) pid =
      (stockOf ps pid).map (fun _ => q) := by
  rw [stockOf, find?_updateStock]
  cases hf : ps.find? (fun p => p.id == pid) with
  | none => simp [stockOf, hf]
  | some pr =>
      have hp : pr.id = pid := by simpa using List.find?_some hf
      simp [stockOf, hf, hp]

theorem stockOf_updateStock_other (ps : List Product) (pid pid2 : String)
    (q : ℤ) (h : ¬ pid2 = pid) :
    stockOf (updateStock ps pid q) pid2 = stockOf ps pid2 := by
  rw [stockOf, find?_updateStock]
  cases hf : ps.find? (fun p => p.id == pid2) with
  | none => simp [stockOf, hf]
  | some pr =>
      have hp : pr.id = pid2 := by simpa using List.find?_some hf
      simp [stockOf, hf, hp, h]

/-- The per-line stock write performed by step 3 of finalizeSale. -/
def stockWrite (ps : List Product) (item : CartItem) : List Product :=
  updateStock ps item.product.id
    (item.product.stock_quantity - item.quantity)

theorem stockOf_foldl_absent (cart : List CartItem) (ps : List Product)
    (pid : String) (h : ∀ it ∈ cart, ¬ it.product.id = pid) :
    stockOf (cart.foldl stockWrite ps) pid = stockOf ps pid := by
  induction cart generalizing ps with
  | nil => rfl
  | cons c cs ih =>
      rw [List.foldl_cons]
      rw [ih _ (fun it hit => h it (List.mem_cons_of_mem c hit))]
      exact stockOf_updateStock_other ps c.product.id pid _
        (fun he => h c (List.mem_cons_self c cs) he.symm)

theorem stockOf_foldl_nodup (cart : List CartItem) (ps : List Product)
    (it : CartItem) (hnd : (cart.map (fun c => c.product.id)).Nodup)
    (hmem : it ∈ cart) :
    stockOf (cart.foldl stockWrite ps) it.product.id =
      (stockOf ps it.product.id).map
        (fun _ => it.product.stock_quantity - it.quantity) := by
  induction cart generalizing ps with
  | nil => cases hmem
  | cons c cs ih =>
      simp only [List.map_cons, List.nodup_cons] at hnd
      obtain ⟨hc, hnd2⟩ := hnd
      rw [List.foldl_cons]
      rcases List.mem_cons.mp hmem with rfl | hmem2
      · have habs : ∀ x ∈ cs, ¬ x.product.id = it.product.id :=
          nodup_absent_of_mem it cs it.product.id hc rfl
        rw [stockOf_foldl_absent cs _ it.product.id habs]
        exact stockOf_updateStock_self ps it.product.id _
      · have hne : ¬ it.product.id = c.product.id := by
          intro h
          exact hc (h ▸ List.mem_map_of_mem (fun x => x.product.id) hmem2)
        rw [ih _ hnd2 hmem2]
        simp only [stockWrite]
        rw [stockOf_updateStock_other ps c.product.id it.product.id _ hne]

/-- C7: after a successful finalizeSale on a cart with lines unique by
productId, when the persisted stock of each cart product equals the cart
snapshot (the single-session reading of the claim) and each line respects
the cart invariant quantity ≤ snapshot stock, the persisted stock of each
cart product afterwards is its stock before minus the quantity sold, and
that value is never negative. -/
theorem C7_stock_after_sale (db : DBState) (cart : List CartItem)
    (uid : String) (cust : Option String) (d : ℚ) (pm : String) (n : ℤ)
    (today : Date) (hne : cart ≠ [])
    (hnd : (cart.map (fun c => c.product.id)).Nodup)
    (hsnap : ∀ it ∈ cart,
      stockOf db.products it.product.id = some it.product.stock_quantity)
    (hinv : ∀ it ∈ cart, it.quantity ≤ it.product.stock_quantity) :
    (finalizeSale db cart (some uid) cust d pm n today).error = none ∧
      ∀ it ∈ cart,
        stockOf (finalizeSale db cart (some uid) cust d pm n
            today).db.products it.product.id =
          some (it.product.stock_quantity - it.quantity) ∧
        0 ≤ it.product.stock_quantity - it.quantity := by
  rw [finalizeSale_success db cart uid cust d pm n today hne]
  refine ⟨rfl, ?_⟩
  intro it hit
  constructor
  · show stockOf (cart.foldl stockWrite db.products) it.product.id = _
    rw [stockOf_foldl_nodup cart db.products it hnd hit, hsnap it hit]
    rfl
  · have := hinv it hit
    linarith

/-- C7 witness: one line of two units of the sample product (stock 5) in a
store holding that product; afterwards its stock is 3. -/
theorem C7_stock_after_sale_witness :
    (([(⟨sampleShirt, 2⟩ : CartItem)] : List CartItem) ≠ [] ∧
      (([⟨sampleShirt, 2⟩] : List CartItem).map
        (fun c => c.product.id)).Nodup ∧
      (∀ it ∈ ([⟨sampleShirt, 2⟩] : List CartItem),
        stockOf [sampleShirt] it.product.id =
          some it.product.stock_quantity) ∧
      (∀ it ∈ ([⟨sampleShirt, 2⟩] : List CartItem),
        it.quantity ≤ it.product.stock_quantity)) ∧
    ((finalizeSale ⟨[], [], [sampleShirt], []⟩ [⟨sampleShirt, 2⟩]
        (some "u1") none 0 "cash" 1 ⟨2024, 1, 15⟩).error = none ∧
      ∀ it ∈ ([⟨sampleShirt, 2⟩] : List CartItem),
        stockOf (finalizeSale ⟨[], [], [sampleShirt], []⟩ [⟨sampleShirt, 2⟩]
            (some "u1") none 0 "cash" 1 ⟨2024, 1, 15⟩).db.products
          it.product.id = some (it.product.stock_quantity - it.quantity) ∧
        0 ≤ it.product.stock_quantity - it.quantity) :=
  ⟨⟨by decide, by decide, by decide, by decide⟩,
    C7_stock_after_sale ⟨[], [], [sampleShirt], []⟩ [⟨sampleShirt, 2⟩] "u1"
      none 0 "cash" 1 ⟨2024, 1, 15⟩ (by decide) (by decide) (by decide)
      (by decide)⟩

/-! ### C8 -/

/-- A sample stored installment used in concrete evaluations. -/
def sampleInstallment : StoredInstallment :=
  { id := "i1", sale_id := "s1", installment_number := 1, amount := 50,
    due_date := ⟨2024, 2, 15⟩, payment_date := none, status := "pending" }

/-- C8: markAsPaid sets the matching installment to status paid with the
given payment date, and is idempotent in effect: a second call on the
same id is not rejected (there is no guard) and simply rewrites the same
fields, leaving the store exactly as after the first call, in particular
with the installment still paid. -/
theorem C8_markAsPaid_idempotent (rows : List StoredInstallment)
    (id : String) (today : Date) :
    (∀ r ∈ markAsPaid rows id today, r.id = id →
      r.status = "paid" ∧ r.payment_date = some today) ∧
    markAsPaid (markAsPaid rows id today) id today =
      markAsPaid rows id today := by
  constructor
  · intro r hr hrid
    simp only [markAsPaid, List.mem_map] at hr
    obtain ⟨r0, -, rfl⟩ := hr
    by_cases h0 : r0.id = id
    · rw [if_pos (by simpa using h0)]
      exact ⟨rfl, rfl⟩
    · rw [if_neg (by simpa using h0)] at hrid ⊢
      exact absurd hrid h0
  · simp only [markAsPaid, List.map_map]
    apply List.map_congr_left
    intro r _
    by_cases h0 : r.id = id
    · simp [h0]
    · simp [h0]

/-- C8 witness: marking the sample pending installment paid, twice. -/
theorem C8_markAsPaid_idempotent_witness :
    (∀ r ∈ markAsPaid [sampleInstallment] "i1" ⟨2024, 3, 1⟩, r.id = "i1" →
      r.status = "paid" ∧ r.payment_date = some ⟨2024, 3, 1⟩) ∧
    markAsPaid (markAsPaid [sampleInstallment] "i1" ⟨2024, 3, 1⟩) "i1"
        ⟨2024, 3, 1⟩ =
      markAsPaid [sampleInstallment] "i1" ⟨2024, 3, 1⟩ :=
  C8_markAsPaid_idempotent [sampleInstallment] "i1" ⟨2024, 3, 1⟩

/-! ### C9 -/

/-- C9: deriveStatus is a function of the stored row and today only; it
returns paid whenever the stored status is paid regardless of due date,
otherwise overdue exactly when the stored status is pending and the due
date is before today, and pending in every remaining case; and the row
rewritten by markPaid derives to paid. -/
theorem C9_deriveStatus_cases (r : StoredInstallment) (today : Date) :
    (r.status = "paid" → deriveStatus r today = DerivedStatus.paid) ∧
    (¬ r.status = "paid" →
      (deriveStatus r today = DerivedStatus.overdue ↔
        (r.status = "pending" ∧ Date.before r.due_date today = true)) ∧
      (¬ (r.status = "pending" ∧ Date.before r.due_date today = true) →
        deriveStatus r today = DerivedStatus.pending)) ∧
    (∀ d : Date,
      deriveStatus { r with status := "paid", payment_date := some d }
        today = DerivedStatus.paid) := by
  refine ⟨?_, ?_, ?_⟩
  · intro hp
    rw [deriveStatus, if_pos (by simpa using hp)]
  · intro hp
    rw [deriveStatus, if_neg (by simpa using hp)]
    constructor
    · constructor
      · intro hov
        by_cases ho : isOverdue r today = true
        · simpa [isOverdue] using ho
        · rw [if_neg (by simpa using ho)] at hov
          cases hov
      · intro ⟨hpend, hbef⟩
        rw [if_pos (by simp [isOverdue, hpend, hbef])]
    · intro hnot
      have ho : ¬ isOverdue r today = true := by
        simpa [isOverdue] using hnot
      rw [if_neg (by simpa using ho)]
  · intro d
    rfl

/-- C9 witness: a pending installment due 2024-02-15 viewed on 2024-03-01
derives to overdue; the same row after markPaid derives to paid. -/
theorem C9_deriveStatus_cases_witness :
    ((sampleInstallment.status = "paid" →
      deriveStatus sampleInstallment ⟨2024, 3, 1⟩ = DerivedStatus.paid) ∧
    (¬ sampleInstallment.status = "paid" →
      (deriveStatus sampleInstallment ⟨2024, 3, 1⟩ = DerivedStatus.overdue ↔
        (sampleInstallment.status = "pending" ∧
          Date.before sampleInstallment.due_date ⟨2024, 3, 1⟩ = true)) ∧
      (¬ (sampleInstallment.status = "pending" ∧
          Date.before sampleInstallment.due_date ⟨2024, 3, 1⟩ = true) →
        deriveStatus sampleInstallment ⟨2024, 3, 1⟩ =
          DerivedStatus.pending)) ∧
    (∀ d : Date,
      deriveStatus
        { sampleInstallment with status := "paid", payment_date := some d }
        ⟨2024, 3, 1⟩ = DerivedStatus.paid)) ∧
    deriveStatus sampleInstallment ⟨2024, 3, 1⟩ = DerivedStatus.overdue :=
  ⟨C9_deriveStatus_cases sampleInstallment ⟨2024, 3, 1⟩, by decide⟩

end StyleHub
